import Mathlib

/-!
Verification of the solo-environment adapters in `torille/envs/solo_envs.py`:
the three reward functions, the observation and action preprocessing of
`SoloToriEnv` and `SoloContToriEnv`, the constructed action spaces and the
constructor's configuration lookup, embedded shallowly in Lean.

Conventions of the embedding:
* the simulator state is reduced to the two fields the adapters read;
* machine floats are modelled by exact ordered-field arithmetic (`ℝ`, or a
  generic `LinearOrderedField` so that witnesses can be evaluated on `ℚ`);
* the joint/controllable counts `NUM_JOINTS`, `NUM_CONTROLLABLES` and
  `NUM_JOINT_STATES` live in the simulator binding module and are kept as
  parameters `nj`, `nc`, `njs` of the embedded functions;
* calls that mutate their argument are modelled by `..._call` functions that
  also return the contents of the caller's buffer after the call.
-/

namespace Torille

/-- A 3D limb position, one row of the `limb_positions` array. -/
abbrev Vec3 : Type := ℝ × ℝ × ℝ

/-- The part of a simulator state consumed by `solo_envs.py`: `plr0_injury` is
player 1's injury scalar and `limb_positions` is the per-player list of
per-limb 3D coordinates (player 1 first). -/
structure ToribashState where
  plr0_injury : ℝ
  limb_positions : List (List Vec3)

/-- `reward_self_destruct(old_state, new_state)`: the injury delta of player 1,
log-compressed when it exceeds 1. -/
noncomputable def reward_self_destruct (old_state new_state : ToribashState) : ℝ :=
  if new_state.plr0_injury - old_state.plr0_injury > 1 then
    Real.logb 10 (new_state.plr0_injury - old_state.plr0_injury) / 4
  else
    new_state.plr0_injury - old_state.plr0_injury

/-- `reward_stay_safe(old_state, new_state)`: the negated injury delta
`-(old - new)`, log-compressed when it exceeds 1, then negated again. -/
noncomputable def reward_stay_safe (old_state new_state : ToribashState) : ℝ :=
  -(if -(old_state.plr0_injury - new_state.plr0_injury) > 1 then
      Real.logb 10 (-(old_state.plr0_injury - new_state.plr0_injury)) / 4
    else
      -(old_state.plr0_injury - new_state.plr0_injury))

/-- `reward_run_away(old_state, new_state)`: distance of player 1's head
(limb index 0) from the origin in the new state minus the same distance in the
old state, computed as `sqrt(sum(pos**2))`. -/
noncomputable def reward_run_away (old_state new_state : ToribashState) : ℝ :=
  Real.sqrt (new_state.limb_positions.headI.headI.1 ^ 2
      + new_state.limb_positions.headI.headI.2.1 ^ 2
      + new_state.limb_positions.headI.headI.2.2 ^ 2)
    - Real.sqrt (old_state.limb_positions.headI.headI.1 ^ 2
      + old_state.limb_positions.headI.headI.2.1 ^ 2
      + old_state.limb_positions.headI.headI.2.2 ^ 2)

/-- C4: for every pair of states with injury delta
`d = new.plr0_injury - old.plr0_injury`, `reward_self_destruct` returns exactly
`d` when `d ≤ 1` and returns `log10(d)/4` when `d > 1`. -/
theorem reward_self_destruct_spec (old_state new_state : ToribashState) :
    (new_state.plr0_injury - old_state.plr0_injury ≤ 1 →
      reward_self_destruct old_state new_state
        = new_state.plr0_injury - old_state.plr0_injury)
    ∧ (1 < new_state.plr0_injury - old_state.plr0_injury →
      reward_self_destruct old_state new_state
        = Real.logb 10 (new_state.plr0_injury - old_state.plr0_injury) / 4) := by
  unfold reward_self_destruct
  constructor
  · intro h
    rw [if_neg (not_lt.mpr h)]
  · intro h
    rw [if_pos h]

/-- Witness for C4: concrete states with injury delta 1 (identity branch) and
injury delta 100 (log-compression branch). -/
theorem reward_self_destruct_spec_witness :
    reward_self_destruct ⟨0, []⟩ ⟨1, []⟩ = 1 - 0
    ∧ reward_self_destruct ⟨0, []⟩ ⟨100, []⟩ = Real.logb 10 (100 - 0) / 4 :=
  ⟨(reward_self_destruct_spec ⟨0, []⟩ ⟨1, []⟩).1 (by norm_num),
   (reward_self_destruct_spec ⟨0, []⟩ ⟨100, []⟩).2 (by norm_num)⟩

/-- C5: whenever injury did not decrease, `reward_stay_safe` is nonpositive,
and it is exactly 0 when the two states have equal injury. -/
theorem reward_stay_safe_spec (old_state new_state : ToribashState) :
    (old_state.plr0_injury ≤ new_state.plr0_injury →
      reward_stay_safe old_state new_state ≤ 0)
    ∧ (old_state.plr0_injury = new_state.plr0_injury →
      reward_stay_safe old_state new_state = 0) := by
  unfold reward_stay_safe
  rw [neg_sub]
  constructor
  · intro h
    split_ifs with hd
    · have hlog : 0 ≤ Real.logb 10 (new_state.plr0_injury - old_state.plr0_injury) :=
        Real.logb_nonneg (by norm_num) hd.le
      have : 0 ≤ Real.logb 10 (new_state.plr0_injury - old_state.plr0_injury) / 4 := by
        positivity
      linarith
    · have : 0 ≤ new_state.plr0_injury - old_state.plr0_injury := sub_nonneg.mpr h
      linarith
  · intro h
    rw [h]
    norm_num

/-- Witness for C5: equal injuries give reward 0, and a nonnegative injury
delta gives a nonpositive reward, at concrete states. -/
theorem reward_stay_safe_spec_witness :
    reward_stay_safe ⟨5, []⟩ ⟨5, []⟩ = 0 ∧ reward_stay_safe ⟨0, []⟩ ⟨3, []⟩ ≤ 0 :=
  ⟨(reward_stay_safe_spec ⟨5, []⟩ ⟨5, []⟩).2 rfl,
   (reward_stay_safe_spec ⟨0, []⟩ ⟨3, []⟩).1 (by norm_num)⟩

/-- C10: on every pair of states, `reward_stay_safe` is exactly the negation of
`reward_self_destruct`: both compress the same injury delta and differ only by
the final sign. -/
theorem reward_stay_safe_eq_neg_self_destruct (old_state new_state : ToribashState) :
    reward_stay_safe old_state new_state = -reward_self_destruct old_state new_state := by
  unfold reward_stay_safe reward_self_destruct
  rw [neg_sub]

/-- The Euclidean norm of a 3D position, via the `EuclideanSpace` norm. -/
noncomputable def euclidNorm3 (p : Vec3) : ℝ :=
  ‖(WithLp.equiv 2 (Fin 3 → ℝ)).symm ![p.1, p.2.1, p.2.2]‖

theorem euclidNorm3_eq_sqrt (p : Vec3) :
    euclidNorm3 p = Real.sqrt (p.1 ^ 2 + p.2.1 ^ 2 + p.2.2 ^ 2) := by
  unfold euclidNorm3
  rw [EuclideanSpace.norm_eq]
  simp [Fin.sum_univ_three, Real.norm_eq_abs, sq_abs]

/-- C6: `reward_run_away` returns the Euclidean norm of the new head position
(player 1, limb index 0) minus the Euclidean norm of the old head position, and
for old head `(3,4,0)` and new head `(6,8,0)` it returns `5`. -/
theorem reward_run_away_spec :
    (∀ old_state new_state : ToribashState,
      reward_run_away old_state new_state
        = euclidNorm3 new_state.limb_positions.headI.headI
          - euclidNorm3 old_state.limb_positions.headI.headI)
    ∧ reward_run_away ⟨0, [[(3, 4, 0)]]⟩ ⟨0, [[(6, 8, 0)]]⟩ = 5 := by
  have key : ∀ old_state new_state : ToribashState,
      reward_run_away old_state new_state
        = euclidNorm3 new_state.limb_positions.headI.headI
          - euclidNorm3 old_state.limb_positions.headI.headI := by
    intro old_state new_state
    rw [euclidNorm3_eq_sqrt, euclidNorm3_eq_sqrt]
    rfl
  refine ⟨key, ?_⟩
  show Real.sqrt ((6 : ℝ) ^ 2 + 8 ^ 2 + 0 ^ 2)
      - Real.sqrt ((3 : ℝ) ^ 2 + 4 ^ 2 + 0 ^ 2) = 5
  rw [show (6 : ℝ) ^ 2 + 8 ^ 2 + 0 ^ 2 = 10 ^ 2 by norm_num,
      show (3 : ℝ) ^ 2 + 4 ^ 2 + 0 ^ 2 = 5 ^ 2 by norm_num,
      Real.sqrt_sq (by norm_num : (0 : ℝ) ≤ 10),
      Real.sqrt_sq (by norm_num : (0 : ℝ) ≤ 5)]
  norm_num

/-- The type of the pluggable reward functions stored by both environments. -/
abbrev RewardFunc : Type := ToribashState → ToribashState → ℝ

/-- The `SoloToriEnv` instance state relevant to the claims: the reward
function fetched from the constructor's keyword arguments. -/
structure SoloToriEnvObj where
  reward_func : RewardFunc

/-- The `SoloContToriEnv` instance state relevant to the claims. -/
structure SoloContToriEnvObj where
  reward_func : RewardFunc

/-- `SoloToriEnv.__init__`: reads `kwargs["reward_func"]`; a missing key makes
the whole construction fail with a `KeyError` surfaced to the caller. -/
def SoloToriEnvObj.init (kwargs : List (String × RewardFunc)) :
    Except String SoloToriEnvObj :=
  match kwargs.lookup "reward_func" with
  | some f => .ok ⟨f⟩
  | none => .error "KeyError: reward_func"

/-- `SoloContToriEnv.__init__`: same configuration lookup as `SoloToriEnv`. -/
def SoloContToriEnvObj.init (kwargs : List (String × RewardFunc)) :
    Except String SoloContToriEnvObj :=
  match kwargs.lookup "reward_func" with
  | some f => .ok ⟨f⟩
  | none => .error "KeyError: reward_func"

/-- `SoloToriEnv._reward_function`: delegates to the configured callable. -/
def SoloToriEnvObj.reward_function (env : SoloToriEnvObj)
    (old_state new_state : ToribashState) : ℝ :=
  env.reward_func old_state new_state

/-- `SoloContToriEnv._reward_function`: delegates to the configured callable. -/
def SoloContToriEnvObj.reward_function (env : SoloContToriEnvObj)
    (old_state new_state : ToribashState) : ℝ :=
  env.reward_func old_state new_state

/-- C7: constructing either environment with a configuration lacking
`"reward_func"` fails with a key-lookup error; with the key present the
construction succeeds, stores that function, and the reward hook delegates
to it. -/
theorem init_reward_func_spec (kwargs : List (String × RewardFunc)) :
    (kwargs.lookup "reward_func" = none →
      SoloToriEnvObj.init kwargs = .error "KeyError: reward_func"
      ∧ SoloContToriEnvObj.init kwargs = .error "KeyError: reward_func")
    ∧ (∀ f : RewardFunc, kwargs.lookup "reward_func" = some f →
      SoloToriEnvObj.init kwargs = .ok ⟨f⟩
      ∧ SoloContToriEnvObj.init kwargs = .ok ⟨f⟩
      ∧ (∀ old_state new_state,
          SoloToriEnvObj.reward_function ⟨f⟩ old_state new_state
            = f old_state new_state)
      ∧ (∀ old_state new_state,
          SoloContToriEnvObj.reward_function ⟨f⟩ old_state new_state
            = f old_state new_state)) := by
  constructor
  · intro h
    unfold SoloToriEnvObj.init SoloContToriEnvObj.init
    rw [h]
    exact ⟨rfl, rfl⟩
  · intro f h
    unfold SoloToriEnvObj.init SoloContToriEnvObj.init
    rw [h]
    exact ⟨rfl, rfl, fun _ _ => rfl, fun _ _ => rfl⟩

/-- Witness for C7: the empty configuration fails for both environments, and a
configuration carrying `reward_self_destruct` succeeds and stores it. -/
theorem init_reward_func_spec_witness :
    (SoloToriEnvObj.init [] = .error "KeyError: reward_func"
      ∧ SoloContToriEnvObj.init [] = .error "KeyError: reward_func")
    ∧ SoloToriEnvObj.init [("reward_func", reward_self_destruct)]
        = .ok ⟨reward_self_destruct⟩
    ∧ SoloContToriEnvObj.init [("reward_func", reward_self_destruct)]
        = .ok ⟨reward_self_destruct⟩ :=
  ⟨(init_reward_func_spec []).1 rfl,
   ((init_reward_func_spec [("reward_func", reward_self_destruct)]).2
      reward_self_destruct rfl).1,
   ((init_reward_func_spec [("reward_func", reward_self_destruct)]).2
      reward_self_destruct rfl).2.1⟩

/-- `ravel()` of a list of 3D positions: the flat coordinate list. -/
def ravel3 : List Vec3 → List ℝ
  | [] => []
  | p :: ps => p.1 :: p.2.1 :: p.2.2 :: ravel3 ps

theorem ravel3_length (l : List Vec3) : (ravel3 l).length = l.length * 3 := by
  induction l with
  | nil => rfl
  | cons p ps ih =>
    simp only [ravel3, List.length_cons, ih]
    ring

/-- `SoloToriEnv._preprocess_observation`: flattened limb positions of the
first player only. -/
def SoloToriEnv.preprocess_observation (state : ToribashState) : List ℝ :=
  ravel3 state.limb_positions.headI

/-- `SoloContToriEnv._preprocess_observation`: identical to the discrete one. -/
def SoloContToriEnv.preprocess_observation (state : ToribashState) : List ℝ :=
  ravel3 state.limb_positions.headI

/-- C8: for a state whose first player has `nl` limbs, both adapters return
exactly the flattened limb positions of player 1 — independently of the
remaining players — and the result has length `nl * 3`. -/
theorem preprocess_observation_spec (state : ToribashState) (p1 : List Vec3)
    (rest : List (List Vec3)) (nl : ℕ) (hp : state.limb_positions = p1 :: rest)
    (hl : p1.length = nl) :
    SoloToriEnv.preprocess_observation state = ravel3 p1
    ∧ SoloContToriEnv.preprocess_observation state = ravel3 p1
    ∧ (SoloToriEnv.preprocess_observation state).length = nl * 3
    ∧ (SoloContToriEnv.preprocess_observation state).length = nl * 3 := by
  unfold SoloToriEnv.preprocess_observation SoloContToriEnv.preprocess_observation
  rw [hp]
  exact ⟨rfl, rfl, by rw [List.headI_cons, ravel3_length, hl],
    by rw [List.headI_cons, ravel3_length, hl]⟩

/-- Witness for C8: a two-player state with one limb each; the observation is
the flattening of player 1's single limb and has length `1 * 3`. -/
theorem preprocess_observation_spec_witness :
    SoloToriEnv.preprocess_observation ⟨0, [[(1, 2, 3)], [(4, 5, 6)]]⟩
        = ravel3 [(1, 2, 3)]
    ∧ SoloContToriEnv.preprocess_observation ⟨0, [[(1, 2, 3)], [(4, 5, 6)]]⟩
        = ravel3 [(1, 2, 3)]
    ∧ (SoloToriEnv.preprocess_observation ⟨0, [[(1, 2, 3)], [(4, 5, 6)]]⟩).length
        = 1 * 3
    ∧ (SoloContToriEnv.preprocess_observation ⟨0, [[(1, 2, 3)], [(4, 5, 6)]]⟩).length
        = 1 * 3 :=
  preprocess_observation_spec ⟨0, [[(1, 2, 3)], [(4, 5, 6)]]⟩ [(1, 2, 3)]
    [[(4, 5, 6)]] 1 rfl rfl

/-- The loop `for i in range(nj): action[i] += 1` of
`SoloToriEnv._preprocess_action`: increments the first `nj` entries. -/
def incFirst (nj : ℕ) : List ℤ → List ℤ
  | [] => []
  | a :: rest =>
    match nj with
    | 0 => a :: rest
    | n + 1 => (a + 1) :: incFirst n rest

/-- `SoloToriEnv._preprocess_action` with `nj = NUM_JOINTS` and
`nc = NUM_CONTROLLABLES`: increments the first `nj` (joint) entries and pairs
the result with the all-ones "hold" sequence for the opponent. -/
def SoloToriEnv.preprocess_action (nj nc : ℕ) (action : List ℤ) : List (List ℤ) :=
  [incFirst nj action, List.replicate nc 1]

theorem incFirst_length (nj : ℕ) (l : List ℤ) : (incFirst nj l).length = l.length := by
  induction l generalizing nj with
  | nil => simp [incFirst]
  | cons a rest ih =>
    cases nj with
    | zero => simp [incFirst]
    | succ n => simp [incFirst, ih]

theorem incFirst_getD (nj : ℕ) (l : List ℤ) (i : ℕ) (hi : i < l.length) :
    (incFirst nj l).getD i 0
      = if i < nj then l.getD i 0 + 1 else l.getD i 0 := by
  induction l generalizing nj i with
  | nil => simp at hi
  | cons a rest ih =>
    cases nj with
    | zero => simp [incFirst]
    | succ n =>
      cases i with
      | zero => simp [incFirst]
      | succ j =>
        have hj : j < rest.length := by simpa using hi
        simp only [incFirst, List.getD_cons_succ]
        rw [ih n j hj]
        simp [Nat.succ_lt_succ_iff]

theorem incFirst_zero (l : List ℤ) : incFirst 0 l = l := by
  cases l <;> rfl

theorem incFirst_replicate (nj k : ℕ) :
    incFirst nj (List.replicate (nj + k) 0)
      = List.replicate nj 1 ++ List.replicate k 0 := by
  induction nj with
  | zero => simp [incFirst_zero]
  | succ n ih =>
    rw [show n + 1 + k = (n + k) + 1 by omega, List.replicate_succ]
    show (0 + 1) :: incFirst n (List.replicate (n + k) 0)
        = List.replicate (n + 1) 1 ++ List.replicate k 0
    rw [ih, List.replicate_succ]
    norm_num

/-- C1: on an action sequence of length `nj + 2`, `SoloToriEnv`'s
`_preprocess_action` returns a pair whose first element has each of the first
`nj` (joint) entries incremented by 1 and the last two (grip) entries
unchanged, and whose second element is the all-ones sequence of length `nc`;
on the all-zeros action every joint becomes 1 and both grips stay 0. -/
theorem preprocess_action_spec (nj nc : ℕ) (action : List ℤ)
    (h : action.length = nj + 2) :
    (SoloToriEnv.preprocess_action nj nc action).length = 2
    ∧ (SoloToriEnv.preprocess_action nj nc action).headI.length = nj + 2
    ∧ (∀ i, i < nj →
        (SoloToriEnv.preprocess_action nj nc action).headI.getD i 0
          = action.getD i 0 + 1)
    ∧ (∀ i, nj ≤ i → i < nj + 2 →
        (SoloToriEnv.preprocess_action nj nc action).headI.getD i 0
          = action.getD i 0)
    ∧ (SoloToriEnv.preprocess_action nj nc action).getD 1 []
        = List.replicate nc 1
    ∧ SoloToriEnv.preprocess_action nj nc (List.replicate (nj + 2) 0)
        = [List.replicate nj 1 ++ List.replicate 2 0, List.replicate nc 1] := by
  unfold SoloToriEnv.preprocess_action
  refine ⟨rfl, ?_, ?_, ?_, rfl, ?_⟩
  · show (incFirst nj action).length = nj + 2
    rw [incFirst_length, h]
  · intro i hi
    show (incFirst nj action).getD i 0 = action.getD i 0 + 1
    rw [incFirst_getD nj action i (by omega), if_pos hi]
  · intro i h1 h2
    show (incFirst nj action).getD i 0 = action.getD i 0
    rw [incFirst_getD nj action i (by omega), if_neg (by omega)]
  · rw [incFirst_replicate nj 2]

/-- Witness for C1: the all-zeros action of length 22 for `nj = 20` joints,
`nc = 22` controllables: every joint becomes 1, both grips stay 0, player 2
gets the all-ones hold sequence. -/
theorem preprocess_action_spec_witness :
    SoloToriEnv.preprocess_action 20 22 (List.replicate 22 0)
      = [List.replicate 20 1 ++ List.replicate 2 0, List.replicate 22 1] :=
  (preprocess_action_spec 20 22 (List.replicate 22 0) rfl).2.2.2.2.2

/-- `np.clip(x, lo, hi)` on scalars: `min(max(x, lo), hi)`. -/
def clip {α : Type} [LinearOrder α] (x lo hi : α) : α := min (max x lo) hi

/-- `SoloContToriEnv._preprocess_action` with `nc = NUM_CONTROLLABLES`, over
exact arithmetic in an ordered field: adds 1 to every component, then maps all
but the last two components through `floor(clip(., 0, 4.9))` and each of the
last two through `floor(clip(. - 1, 0, 1.9))`, casts to integers and pairs the
result with the all-ones "hold" sequence for the opponent. -/
def SoloContToriEnv.preprocess_action {α : Type} [LinearOrderedField α]
    [FloorRing α] (nc : ℕ) (action : List α) : List (List ℤ) :=
  [((action.map (fun v => v + 1)).take (action.length - 2)).map
      (fun v => ⌊clip v 0 4.9⌋)
    ++ ((action.map (fun v => v + 1)).drop (action.length - 2)).map
      (fun v => ⌊clip (v - 1) 0 1.9⌋),
   List.replicate nc 1]

theorem floor_clip_joint_mem {α : Type} [LinearOrderedField α] [FloorRing α]
    (v : α) : ⌊clip (v + 1) 0 4.9⌋ ∈ ({0, 1, 2, 3, 4} : Set ℤ) := by
  have h0 : (0 : ℤ) ≤ ⌊clip (v + 1) 0 4.9⌋ := by
    apply Int.floor_nonneg.mpr
    exact le_min (le_max_right _ _) (by norm_num)
  have h4 : ⌊clip (v + 1) 0 4.9⌋ ≤ 4 := by
    have hle : clip (v + 1) 0 4.9 ≤ (4.9 : α) := min_le_right _ _
    have := Int.floor_le_floor hle
    have h49 : ⌊(4.9 : α)⌋ = 4 := by
      rw [Int.floor_eq_iff]
      constructor <;> norm_num
    omega
  simp only [Set.mem_insert_iff, Set.mem_singleton_iff]
  omega

theorem floor_clip_grip_mem {α : Type} [LinearOrderedField α] [FloorRing α]
    (v : α) : ⌊clip v 0 1.9⌋ ∈ ({0, 1} : Set ℤ) := by
  have h0 : (0 : ℤ) ≤ ⌊clip v 0 1.9⌋ := by
    apply Int.floor_nonneg.mpr
    exact le_min (le_max_right _ _) (by norm_num)
  have h1 : ⌊clip v 0 1.9⌋ ≤ 1 := by
    have hle : clip v 0 1.9 ≤ (1.9 : α) := min_le_right _ _
    have := Int.floor_le_floor hle
    have h19 : ⌊(1.9 : α)⌋ = 1 := by
      rw [Int.floor_eq_iff]
      constructor <;> norm_num
    omega
  simp only [Set.mem_insert_iff, Set.mem_singleton_iff]
  omega

theorem clip_one_joint {α : Type} [LinearOrderedField α] :
    clip ((0 : α) + 1) 0 4.9 = 1 := by
  unfold clip
  rw [zero_add, max_eq_left (by norm_num : (0 : α) ≤ 1),
    min_eq_left (by norm_num : (1 : α) ≤ 4.9)]

theorem clip_zero_grip {α : Type} [LinearOrderedField α] :
    clip (0 : α) 0 1.9 = 0 := by
  unfold clip
  rw [max_self, min_eq_left (by norm_num : (0 : α) ≤ 1.9)]

/-- C3: on a vector of length `nj + 2`, `SoloContToriEnv`'s
`_preprocess_action` maps each joint component `v` (index `< nj`) to
`⌊clip (v + 1) 0 4.9⌋ ∈ {0,…,4}` and each of the last two grip components `v`
to `⌊clip v 0 1.9⌋ ∈ {0,1}` (the `+1`/`-1` cancel), paired with the all-ones
sequence of length `nc`; the all-zero input yields joints 1 and grips 0. -/
theorem cont_preprocess_action_spec {α : Type} [LinearOrderedField α]
    [FloorRing α] (nj nc : ℕ) (action : List α) (h : action.length = nj + 2) :
    SoloContToriEnv.preprocess_action nc action
      = [(action.take nj).map (fun v => ⌊clip (v + 1) 0 4.9⌋)
          ++ (action.drop nj).map (fun v => ⌊clip v 0 1.9⌋),
         List.replicate nc 1]
    ∧ (∀ v : α, ⌊clip (v + 1) 0 4.9⌋ ∈ ({0, 1, 2, 3, 4} : Set ℤ))
    ∧ (∀ v : α, ⌊clip v 0 1.9⌋ ∈ ({0, 1} : Set ℤ))
    ∧ SoloContToriEnv.preprocess_action nc (List.replicate (nj + 2) (0 : α))
      = [List.replicate nj 1 ++ List.replicate 2 0, List.replicate nc 1] := by
  have main : ∀ l : List α, l.length = nj + 2 →
      SoloContToriEnv.preprocess_action nc l
        = [(l.take nj).map (fun v => ⌊clip (v + 1) 0 4.9⌋)
            ++ (l.drop nj).map (fun v => ⌊clip v 0 1.9⌋),
           List.replicate nc 1] := by
    intro l hl
    unfold SoloContToriEnv.preprocess_action
    rw [hl]
    have hnj : nj + 2 - 2 = nj := by omega
    rw [hnj, ← List.map_take, ← List.map_drop, List.map_map, List.map_map]
    have hfun : ((fun v => ⌊clip (v - 1) 0 1.9⌋) ∘ fun v : α => v + 1)
        = fun v : α => ⌊clip v 0 1.9⌋ := by
      funext v
      show ⌊clip (v + 1 - 1) 0 1.9⌋ = ⌊clip v 0 1.9⌋
      rw [add_sub_cancel_right]
    rw [hfun]
    rfl
  refine ⟨main action h, floor_clip_joint_mem, floor_clip_grip_mem, ?_⟩
  rw [main (List.replicate (nj + 2) (0 : α)) (by simp)]
  rw [List.take_replicate, List.drop_replicate, List.map_replicate,
    List.map_replicate]
  have hmin : min nj (nj + 2) = nj := by omega
  have hsub : nj + 2 - nj = 2 := by omega
  rw [hmin, hsub, clip_one_joint, clip_zero_grip, Int.floor_one, Int.floor_zero]

/-- Witness for C3: the all-zero rational vector of length 22 with `nj = 20`
joints and `nc = 22` controllables yields joints 1, grips 0, and the all-ones
hold sequence for player 2. -/
theorem cont_preprocess_action_spec_witness :
    SoloContToriEnv.preprocess_action 22 (List.replicate 22 (0 : ℚ))
      = [List.replicate 20 1 ++ List.replicate 2 0, List.replicate 22 1] :=
  (cont_preprocess_action_spec 20 22 (List.replicate 22 (0 : ℚ)) rfl).2.2.2

/-- Call-level model of `SoloToriEnv._preprocess_action`, including its effect
on the caller's argument: a Python list argument is shared, so the in-place
`action[i] += 1` writes are visible to the caller, while any other sequence is
first copied by `list(action)`. The first component is the contents of the
caller's sequence after the call; the second is the returned dual action. -/
def SoloToriEnv.preprocess_action_call (nj nc : ℕ) (action : List ℤ)
    (argShared : Bool) : List ℤ × List (List ℤ) :=
  (if argShared then incFirst nj action else action,
   [incFirst nj action, List.replicate nc 1])

/-- Call-level model of `SoloContToriEnv._preprocess_action`: the numpy array
argument is updated in place by `action += 1` and the slice assignments (the
final `astype`/`list` steps build fresh objects), so after the call the
caller's array holds the clipped-and-floored values as field elements. -/
def SoloContToriEnv.preprocess_action_call {α : Type} [LinearOrderedField α]
    [FloorRing α] (nc : ℕ) (action : List α) : List α × List (List ℤ) :=
  (((action.map (fun v => v + 1)).take (action.length - 2)).map
      (fun v => ((⌊clip v 0 4.9⌋ : ℤ) : α))
    ++ ((action.map (fun v => v + 1)).drop (action.length - 2)).map
      (fun v => ((⌊clip (v - 1) 0 1.9⌋ : ℤ) : α)),
   SoloContToriEnv.preprocess_action nc action)

/-- Call-level model of `SoloToriEnv._preprocess_observation`: the state is
only read, never written. -/
def SoloToriEnv.preprocess_observation_call (state : ToribashState) :
    ToribashState × List ℝ :=
  (state, SoloToriEnv.preprocess_observation state)

/-- Call-level model of `SoloContToriEnv._preprocess_observation`. -/
def SoloContToriEnv.preprocess_observation_call (state : ToribashState) :
    ToribashState × List ℝ :=
  (state, SoloContToriEnv.preprocess_observation state)

/-- C9 counterexample: `SoloToriEnv._preprocess_action` does not leave the
caller's action sequence unchanged — on the all-zeros list of length 22 (with
20 joints) the caller's list afterwards differs from the original. -/
theorem preprocess_action_mutates_counterexample :
    (SoloToriEnv.preprocess_action_call 20 22 (List.replicate 22 0) true).1
      ≠ List.replicate 22 0 := by
  decide

/-- C9 amended: observation preprocessing is pure (the state is returned
untouched, so repeated calls agree), but action preprocessing of both adapters
mutates the caller's sequence in place: afterwards the discrete adapter's
caller list carries the incremented joint entries, and the continuous
adapter's caller array carries the clipped-and-floored values. -/
theorem preprocess_pure_amended {α : Type} [LinearOrderedField α] [FloorRing α]
    (nj nc : ℕ) (action : List ℤ) (caction : List α) (state : ToribashState)
    (h : action.length = nj + 2) (hc : caction.length = nj + 2) :
    SoloToriEnv.preprocess_observation_call state
      = (state, SoloToriEnv.preprocess_observation state)
    ∧ SoloContToriEnv.preprocess_observation_call state
      = (state, SoloContToriEnv.preprocess_observation state)
    ∧ (∀ i, i < nj →
        (SoloToriEnv.preprocess_action_call nj nc action true).1.getD i 0
          = action.getD i 0 + 1)
    ∧ (SoloContToriEnv.preprocess_action_call nc caction).1
      = (caction.take nj).map (fun v => ((⌊clip (v + 1) 0 4.9⌋ : ℤ) : α))
        ++ (caction.drop nj).map (fun v => ((⌊clip v 0 1.9⌋ : ℤ) : α)) := by
  refine ⟨rfl, rfl, ?_, ?_⟩
  · intro i hi
    show (incFirst nj action).getD i 0 = action.getD i 0 + 1
    rw [incFirst_getD nj action i (by omega), if_pos hi]
  · unfold SoloContToriEnv.preprocess_action_call
    rw [hc]
    have hnj : nj + 2 - 2 = nj := by omega
    rw [hnj, ← List.map_take, ← List.map_drop, List.map_map, List.map_map]
    have hfun : ((fun v => ((⌊clip (v - 1) 0 1.9⌋ : ℤ) : α)) ∘ fun v : α => v + 1)
        = fun v : α => ((⌊clip v 0 1.9⌋ : ℤ) : α) := by
      funext v
      show ((⌊clip (v + 1 - 1) 0 1.9⌋ : ℤ) : α) = ((⌊clip v 0 1.9⌋ : ℤ) : α)
      rw [add_sub_cancel_right]
    rw [hfun]
    rfl

/-- Witness for C9's amended claim: concrete length-22 sequences over `ℚ` with
20 joints; the caller's first entry after the discrete call is the original
entry plus one. -/
theorem preprocess_pure_amended_witness :
    (SoloToriEnv.preprocess_action_call 20 22 (List.replicate 22 0) true).1.getD 0 0
      = (List.replicate 22 (0 : ℤ)).getD 0 0 + 1 :=
  (preprocess_pure_amended 20 22 (List.replicate 22 0)
    (List.replicate 22 (0 : ℚ)) ⟨0, []⟩ rfl rfl).2.2.1 0 (by norm_num)

/-- Modelled from the spec: the current `MultiDiscrete` encoding takes a plain
size per dimension, a dimension of size `n` admitting the values
`0, …, n - 1`. -/
def nvecDimValues (n : ℕ) : Finset ℕ := Finset.range n

/-- Modelled from the spec: the legacy (win32) `MultiDiscrete` encoding takes
an explicit `[min, max]` range per dimension, admitting `min, …, max`. -/
def rangeDimValues (r : ℤ × ℤ) : Finset ℤ := Finset.Icc r.1 r.2

/-- The `MultiDiscrete` argument `SoloToriEnv.__init__` builds on non-win32
platforms: `[NUM_JOINT_STATES]*NUM_JOINTS + [1]*2`. -/
def SoloToriEnv.action_space_nvec (nj njs : ℕ) : List ℕ :=
  List.replicate nj njs ++ List.replicate 2 1

/-- The `MultiDiscrete` argument `SoloToriEnv.__init__` builds on win32:
`[[0, NUM_JOINT_STATES-1]]*NUM_JOINTS + [[0, 1]]*2`. -/
def SoloToriEnv.action_space_win32 (nj njs : ℕ) : List (ℤ × ℤ) :=
  List.replicate nj (0, (njs : ℤ) - 1) ++ List.replicate 2 (0, 1)

/-- C2 (at `NUM_JOINTS = 20`, `NUM_JOINT_STATES = 4`): both branches build
`NUM_JOINTS + 2` dimensions and every joint dimension admits the
`NUM_JOINT_STATES` values, but the two grip dimensions are binary only on
win32 — the non-win32 branch passes size `1` for each grip dimension, which
admits only the value `0`, not the two values `0` and `1`. -/
theorem action_space_grip_dims :
    (SoloToriEnv.action_space_nvec 20 4).length = 20 + 2
    ∧ (SoloToriEnv.action_space_win32 20 4).length = 20 + 2
    ∧ (∀ i, i < 20 →
        nvecDimValues ((SoloToriEnv.action_space_nvec 20 4).getD i 0)
          = nvecDimValues 4)
    ∧ (∀ i, i < 20 →
        rangeDimValues ((SoloToriEnv.action_space_win32 20 4).getD i (0, 0))
          = ({0, 1, 2, 3} : Finset ℤ))
    ∧ rangeDimValues ((SoloToriEnv.action_space_win32 20 4).getD 20 (0, 0))
        = ({0, 1} : Finset ℤ)
    ∧ rangeDimValues ((SoloToriEnv.action_space_win32 20 4).getD 21 (0, 0))
        = ({0, 1} : Finset ℤ)
    ∧ nvecDimValues ((SoloToriEnv.action_space_nvec 20 4).getD 20 0)
        = ({0} : Finset ℕ)
    ∧ nvecDimValues ((SoloToriEnv.action_space_nvec 20 4).getD 21 0)
        = ({0} : Finset ℕ)
    ∧ ({0} : Finset ℕ) ≠ ({0, 1} : Finset ℕ) := by
  decide

end Torille
